import Mathlib

/-!
Verification development for the taskd daemon (register-machine interpreter,
job worker and wire protocol).

Shallow embedding notes.

* Registers (`sm_reg` in `state_machine.h`) are `void *` machine words.  The
  source stores every value pointer-punned into one word: `NULL` (the state of
  a freshly `calloc`ed register file), an integer cast with
  `(void *)(uintptr_t)n`, or a pointer to a heap-allocated string.  We embed a
  register slot as `Val` below.  Because the integer 0 is cast to the null
  pointer, `Val` is built so that storing the integer 0 yields `Val.null`
  (see `ofInt`): on the machine the two are the same word and no code can
  distinguish them.
* Strings held in registers are always fresh heap allocations
  (`strdup` in the recipe parser, `malloc` inside the fs helpers); no opcode
  copies one register into another, so two distinct registers never hold the
  same pointer.  Word comparison of registers (`SM_OP_EQ`) is embedded
  accordingly: two string slots compare equal exactly when they are the same
  register (`valEqWord` plus the same-index shortcut in the EQ branch).
* Filesystem primitives and the libc PRNG are external to the interpreter
  (spec sections 1 and 6 treat them as opaque contracts).  We model them as an
  explicit world `W` threaded through execution together with an `EnvOps W`
  record of their (deterministic, world-passing) signatures, and we record
  every primitive invocation in a call trace.
* cJSON is external; a wire message is embedded as an already-parsed `Json`
  tree (`Option Json` where the C checks `cJSON_Parse` for `NULL`).  cJSON
  `valueint` saturates a numeric value to the `int` range; `valueint` below
  reproduces that.
* Allocation failure (`malloc`/`strdup` returning `NULL`) is not modelled:
  every allocation is assumed to succeed.
-/

namespace Taskd

/-- One register slot: the null word, a non-null pointer-punned integer, or a
heap string owned by the register (`sm_reg` is `void *`). -/
inductive Val where
  | null : Val
  | int (n : Int) : Val
  | str (s : String) : Val
deriving DecidableEq, Repr

/-- Store an integer into a register: `(void *)(uintptr_t)n`.  The integer 0
is the null pointer, i.e. the empty register. -/
def ofInt (n : Int) : Val :=
  if n = 0 then Val.null else Val.int n

/-- Store a boolean result: `(void *)(uintptr_t)ok` — word 1 or the null word. -/
def ofBool (b : Bool) : Val :=
  ofInt (if b then 1 else 0)

/-- Truthiness of a register word (`(uintptr_t)reg != 0`): null is false, a
non-zero integer is true, a string pointer is non-null hence true. -/
def truthy : Val → Bool
  | Val.null => false
  | Val.int n => n ≠ 0
  | Val.str _ => true

/-- The numeric word of a slot when it is statically known: `none` for a
string, whose word is its (untracked) heap address. -/
def word : Val → Option Int
  | Val.null => some 0
  | Val.int n => some n
  | Val.str _ => none

/-- Word equality of two register slots held in distinct registers.  A string
pointer is a fresh allocation, so it never equals the word of a different
slot (another fresh allocation, a small punned integer, or null). -/
def valEqWord (a b : Val) : Bool :=
  match word a, word b with
  | some x, some y => x == y
  | _, _ => false

/-- Read a register as a `const char *` operand.  Null reads as the null
pointer; a string reads as itself.  A register holding a non-zero integer
would be dereferenced as an invalid pointer by the C code (undefined
behaviour); the model maps it to `none`, and no claim depends on that branch. -/
def getStr : Val → Option String
  | Val.str s => some s
  | _ => none

/-- Read a register as a signed integer (`(long)(uintptr_t)reg`).  For a
string slot the C value would be the allocation address; the model returns 0,
and no claim depends on that branch. -/
def asLong : Val → Int
  | Val.null => 0
  | Val.int n => n
  | Val.str _ => 0

/-- JSON values as produced by `cJSON_Parse`.  Numbers are embedded as
integers: every numeric field the daemon reads goes through cJSON
`valueint`. -/
inductive Json where
  | null : Json
  | jbool (b : Bool) : Json
  | num (n : Int) : Json
  | str (s : String) : Json
  | arr (items : List Json) : Json
  | obj (fields : List (String × Json)) : Json

/-- First value bound to `key` in an association list (cJSON keeps duplicate
keys in insertion order and `cJSON_GetObjectItemCaseSensitive` returns the
first match). -/
def lookupField : List (String × Json) → String → Option Json
  | [], _ => none
  | (k, v) :: rest, key => if k = key then some v else lookupField rest key

/-- The semantics of `cJSON_GetObjectItemCaseSensitive`: first case-sensitive
match inside an object, `NULL` (here `none`) on a non-object. -/
def Json.get : Json → String → Option Json
  | Json.obj fields, key => lookupField fields key
  | _, _ => none

/-- The semantics of `cJSON_IsString` applied to a possibly-null item. -/
def isStr : Option Json → Bool
  | some (Json.str _) => true
  | _ => false

/-- The semantics of `cJSON_IsNumber` applied to a possibly-null item. -/
def isNum : Option Json → Bool
  | some (Json.num _) => true
  | _ => false

/-- cJSON `valueint`: the numeric value saturated to the C `int` range. -/
def valueint (n : Int) : Int :=
  if 2147483647 ≤ n then 2147483647
  else if n ≤ -2147483648 then -2147483648
  else n

/-- Signed 64-bit wrap-around, for C `long` arithmetic that overflows
(two's complement). -/
def wrap64 (x : Int) : Int :=
  (x + 9223372036854775808) % 18446744073709551616 - 9223372036854775808

/-- Signed 32-bit wrap-around, for the C cast `(int)(uintptr_t)reg` in the
RANDOM_WALK depth operand. -/
def wrap32 (x : Int) : Int :=
  (x + 2147483648) % 4294967296 - 2147483648

/-- The directory separator appended by `path_join`. -/
def sepChar : Char := '/'

/-- Character-level body of `path_join` in `fs_utils.h`: copy `base`, append
a slash when `base` is non-empty and its last byte (`base[lb - 1]`) is not a
slash, then append `name`. -/
def pjChars (base name : List Char) : List Char :=
  (if base ≠ [] ∧ base.getLast? ≠ some sepChar then base ++ [sepChar] else base) ++ name

/-- The helper `path_join` of `fs_utils.h`, as a `String` function over its
character-level body. -/
def path_join (base name : String) : String :=
  String.mk (pjChars base.data name.data)

/-- Drop one trailing separator from a path, if present (used to phrase the
PATH_JOIN separator property). -/
def stripSlash (b : List Char) : List Char :=
  if b.getLast? = some sepChar then b.dropLast else b

/-- The helper `list_index` of `fs_utils.h`.  The C walks `idx` newline
separators (returning `NULL` if fewer are present), then fails if it stands at
the terminating NUL — which happens exactly when the target segment is the
final one and is empty — and otherwise copies the segment up to the next
newline or the end.  In terms of `splitOn "\n"`: segment `idx` of the list,
except that an empty last segment is `none`. -/
def list_index (s : String) (idx : Nat) : Option String :=
  let parts := s.splitOn "\n"
  if h : idx < parts.length then
    let seg := parts.get ⟨idx, h⟩
    if idx = parts.length - 1 && seg = "" then none else some seg
  else none

/-- The helper `rand_range` of `fs_utils.h`: swap a descending range, compute
`max - min + 1` in C `long` arithmetic (wrapping on overflow), return `min`
when that difference is not positive, else `min` plus `rand()` reduced modulo
the difference.  `r` is the non-negative value returned by `rand()`. -/
def rand_range (r : Nat) (lo hi : Int) : Int :=
  let mn := if hi < lo then hi else lo
  let mx := if hi < lo then lo else hi
  let diff := wrap64 (mx - mn + 1)
  if diff ≤ 0 then mn else mn + (r : Int) % diff

/-- The opcode enumeration.  `state_machine.h` declares `SM_OP_LOAD_CONST`
through `SM_OP_RETURN`; the recipe parser in `protocol.h` additionally refers
to an `SM_OP_RAND_SEED` opcode (and an `sm_rand_seed` payload struct) that the
header does not declare.  The constructor `RAND_SEED` embeds that parser-side
opcode; `sm_execute` has no case for it and treats it like any unknown opcode
(its `default` branch). -/
inductive sm_opcode where
  | LOAD_CONST | FS_CREATE | FS_DELETE | FS_COPY | FS_MOVE
  | FS_WRITE | FS_READ | FS_UNPACK | FS_HASH | FS_LIST
  | EQ | NOT | AND | OR
  | INDEX_SELECT | RANDOM_RANGE | PATH_JOIN | RANDOM_WALK | DIR_CONTAINS
  | RAND_SEED | REPORT | RETURN
deriving DecidableEq, Repr

/-- The inline literal of `SM_OP_LOAD_CONST`: a punned integer or a
`strdup`ed string (`sm_load_const.value`). -/
inductive ConstVal where
  | int (n : Int) : ConstVal
  | str (s : String) : ConstVal
deriving DecidableEq, Repr

/-- The per-opcode payload structs of `state_machine.h` (`sm_load_const`,
`sm_fs_create`, …, `sm_return`), one constructor per struct.  All `Int`
fields except `load_const`/`rand_seed`/`ret` literals are register indices. -/
inductive Payload where
  | load_const (dest : Int) (value : ConstVal)
  | fs_create (dest path ty : Int)
  | fs_delete (dest path : Int)
  | fs_copy (dest src dst : Int)
  | fs_move (dest src dst : Int)
  | fs_write (dest path content mode : Int)
  | fs_read (dest path : Int)
  | fs_unpack (tar_path dest : Int)
  | fs_hash (dest path : Int)
  | fs_list (dest path : Int)
  | eq (dest lhs rhs : Int)
  | not (dest src : Int)
  | and (dest lhs rhs : Int)
  | or (dest lhs rhs : Int)
  | index_select (dest list index : Int)
  | random_range (dest min max : Int)
  | path_join (dest base name : Int)
  | random_walk (dest root depth : Int)
  | dir_contains (dest dir_a dir_b : Int)
  | rand_seed (seed : Int)
  | report (regs : List Int)
  | ret (value : Int)
deriving DecidableEq, Repr

/-- An instruction node: opcode plus `void *data`, which the parser leaves
`NULL` (`none`) when the `data` object of the element was malformed.  The
`next` pointer is the list structure itself. -/
structure sm_instr where
  op : sm_opcode
  data : Option Payload
deriving DecidableEq, Repr

/-- SM_REG_COUNT. -/
def SM_REG_COUNT : Int := 8

/-- The helper `reg_valid` of `state_machine.c`. -/
def reg_valid (idx : Int) : Bool :=
  decide (0 ≤ idx) && decide (idx < SM_REG_COUNT)

/-- Read `vm->regs[i]` (only reached under a `reg_valid` guard). -/
def getReg (regs : List Val) (i : Int) : Val :=
  regs.getD i.toNat Val.null

/-- Write `vm->regs[i] = v` (only reached under a `reg_valid` guard). -/
def setReg (regs : List Val) (i : Int) (v : Val) : List Val :=
  regs.set i.toNat v

/-- One recorded invocation of an external filesystem primitive, in call
order. -/
inductive FsCall where
  | create (path ty : String)
  | delete (path : String)
  | copy (src dst : String)
  | move (src dst : String)
  | write (path content mode : String)
  | read (path : String)
  | unpack (tar_path dest : String)
  | hash (path : String)
  | list (path : String)
  | walk (root : String) (depth : Int)
  | contains (dir_a dir_b : String)
deriving DecidableEq, Repr

/-- Deterministic world-passing signatures of the external collaborators:
the filesystem primitives of `fs_utils.h` that touch the host OS, and the
libc PRNG read by `rand()`.  `W` is the state of that outside world. -/
structure EnvOps (W : Type) where
  fsCreate : W → String → String → Bool × W
  fsDelete : W → String → Bool × W
  fsCopy : W → String → String → Bool × W
  fsMove : W → String → String → Bool × W
  fsWrite : W → String → String → String → Bool × W
  fsRead : W → String → Option String × W
  fsUnpack : W → String → String → Bool × W
  fsHash : W → String → Option String × W
  fsList : W → String → Option String × W
  fsRandomWalk : W → String → Int → Option String × W
  fsDirContains : W → String → String → Bool × W
  rand : W → Nat × W

/-- Execution state: the register file (`sm_vm.regs`), the outside world, the
trace of filesystem-primitive calls made so far, and the report events
delivered to the report sink so far.  `sm_execute` in `state_machine.c` has
no `SM_OP_REPORT` case (the opcode falls into its `default` branch) and the
sink installer `sm_set_report_cb` is declared in `state_machine.h` but defined
nowhere, so no branch of the embedding ever appends to `reports`. -/
structure St (W : Type) where
  regs : List Val
  world : W
  calls : List FsCall
  reports : List Json

/-- Effect of one non-RETURN instruction on the state, following the
corresponding `case` of `sm_execute`: validate the payload pointer and every
register-index operand, read the operand registers, call the primitive when
the C does, store the result.  Opcodes with no case in the C `switch`
(`RAND_SEED`, `REPORT`, and any unknown opcode) fall through to the no-op
`default` branch, as does a `NULL` payload; a payload struct that does not
match the opcode is unreachable from the parser and is also a no-op here. -/
def stepWrite {W : Type} (env : EnvOps W) (i : sm_instr) (s : St W) : St W :=
  match i.op, i.data with
  | sm_opcode.LOAD_CONST, some (Payload.load_const dest v) =>
      if reg_valid dest then
        let val := match v with
          | ConstVal.int n => ofInt n
          | ConstVal.str str => Val.str str
        { s with regs := setReg s.regs dest val }
      else s
  | sm_opcode.FS_CREATE, some (Payload.fs_create dest path ty) =>
      if reg_valid dest && reg_valid path && reg_valid ty then
        match getStr (getReg s.regs path), getStr (getReg s.regs ty) with
        | some p, some t =>
            let res := env.fsCreate s.world p t
            { s with regs := setReg s.regs dest (ofBool res.1), world := res.2,
                     calls := s.calls ++ [FsCall.create p t] }
        | _, _ => { s with regs := setReg s.regs dest (ofBool false) }
      else s
  | sm_opcode.FS_DELETE, some (Payload.fs_delete dest path) =>
      if reg_valid dest && reg_valid path then
        match getStr (getReg s.regs path) with
        | some p =>
            let res := env.fsDelete s.world p
            { s with regs := setReg s.regs dest (ofBool res.1), world := res.2,
                     calls := s.calls ++ [FsCall.delete p] }
        | none => { s with regs := setReg s.regs dest (ofBool false) }
      else s
  | sm_opcode.FS_COPY, some (Payload.fs_copy dest src dst) =>
      if reg_valid dest && reg_valid src && reg_valid dst then
        match getStr (getReg s.regs src), getStr (getReg s.regs dst) with
        | some a, some b =>
            let res := env.fsCopy s.world a b
            { s with regs := setReg s.regs dest (ofBool res.1), world := res.2,
                     calls := s.calls ++ [FsCall.copy a b] }
        | _, _ => { s with regs := setReg s.regs dest (ofBool false) }
      else s
  | sm_opcode.FS_MOVE, some (Payload.fs_move dest src dst) =>
      if reg_valid dest && reg_valid src && reg_valid dst then
        match getStr (getReg s.regs src), getStr (getReg s.regs dst) with
        | some a, some b =>
            let res := env.fsMove s.world a b
            { s with regs := setReg s.regs dest (ofBool res.1), world := res.2,
                     calls := s.calls ++ [FsCall.move a b] }
        | _, _ => { s with regs := setReg s.regs dest (ofBool false) }
      else s
  | sm_opcode.FS_WRITE, some (Payload.fs_write dest path content mode) =>
      if reg_valid dest && reg_valid path && reg_valid content && reg_valid mode then
        match getStr (getReg s.regs path), getStr (getReg s.regs content),
              getStr (getReg s.regs mode) with
        | some p, some c, some m =>
            let res := env.fsWrite s.world p c m
            { s with regs := setReg s.regs dest (ofBool res.1), world := res.2,
                     calls := s.calls ++ [FsCall.write p c m] }
        | _, _, _ => { s with regs := setReg s.regs dest (ofBool false) }
      else s
  | sm_opcode.FS_READ, some (Payload.fs_read dest path) =>
      if reg_valid dest && reg_valid path then
        match getStr (getReg s.regs path) with
        | some p =>
            let res := env.fsRead s.world p
            let newVal := match res.1 with
              | some txt => Val.str txt
              | none => Val.null
            { s with regs := setReg s.regs dest newVal, world := res.2,
                     calls := s.calls ++ [FsCall.read p] }
        | none => { s with regs := setReg s.regs dest Val.null }
      else s
  | sm_opcode.FS_UNPACK, some (Payload.fs_unpack tar_path dest) =>
      if reg_valid tar_path && reg_valid dest then
        match getStr (getReg s.regs tar_path), getStr (getReg s.regs dest) with
        | some t, some d =>
            let res := env.fsUnpack s.world t d
            { s with world := res.2, calls := s.calls ++ [FsCall.unpack t d] }
        | _, _ => s
      else s
  | sm_opcode.FS_HASH, some (Payload.fs_hash dest path) =>
      if reg_valid dest && reg_valid path then
        match getStr (getReg s.regs path) with
        | some p =>
            let res := env.fsHash s.world p
            let newVal := match res.1 with
              | some h => Val.str h
              | none => Val.null
            { s with regs := setReg s.regs dest newVal, world := res.2,
                     calls := s.calls ++ [FsCall.hash p] }
        | none => { s with regs := setReg s.regs dest Val.null }
      else s
  | sm_opcode.FS_LIST, some (Payload.fs_list dest path) =>
      if reg_valid dest && reg_valid path then
        match getStr (getReg s.regs path) with
        | some p =>
            let res := env.fsList s.world p
            let newVal := match res.1 with
              | some l => Val.str l
              | none => Val.null
            { s with regs := setReg s.regs dest newVal, world := res.2,
                     calls := s.calls ++ [FsCall.list p] }
        | none => { s with regs := setReg s.regs dest Val.null }
      else s
  | sm_opcode.EQ, some (Payload.eq dest lhs rhs) =>
      if reg_valid dest && reg_valid lhs && reg_valid rhs then
        let e := if lhs = rhs then true
                 else valEqWord (getReg s.regs lhs) (getReg s.regs rhs)
        { s with regs := setReg s.regs dest (ofBool e) }
      else s
  | sm_opcode.NOT, some (Payload.not dest src) =>
      if reg_valid dest && reg_valid src then
        { s with regs := setReg s.regs dest (ofBool (!truthy (getReg s.regs src))) }
      else s
  | sm_opcode.AND, some (Payload.and dest lhs rhs) =>
      if reg_valid dest && reg_valid lhs && reg_valid rhs then
        let v := truthy (getReg s.regs lhs) && truthy (getReg s.regs rhs)
        { s with regs := setReg s.regs dest (ofBool v) }
      else s
  | sm_opcode.OR, some (Payload.or dest lhs rhs) =>
      if reg_valid dest && reg_valid lhs && reg_valid rhs then
        let v := truthy (getReg s.regs lhs) || truthy (getReg s.regs rhs)
        { s with regs := setReg s.regs dest (ofBool v) }
      else s
  | sm_opcode.INDEX_SELECT, some (Payload.index_select dest list index) =>
      if reg_valid dest && reg_valid list && reg_valid index then
        let idx := (asLong (getReg s.regs index) % 18446744073709551616).toNat
        let newVal := match getStr (getReg s.regs list) with
          | some l =>
              match list_index l idx with
              | some out => Val.str out
              | none => Val.null
          | none => Val.null
        { s with regs := setReg s.regs dest newVal }
      else s
  | sm_opcode.RANDOM_RANGE, some (Payload.random_range dest min max) =>
      if reg_valid dest && reg_valid min && reg_valid max then
        let mn := asLong (getReg s.regs min)
        let mx := asLong (getReg s.regs max)
        let res := env.rand s.world
        { s with regs := setReg s.regs dest (ofInt (rand_range res.1 mn mx)),
                 world := res.2 }
      else s
  | sm_opcode.PATH_JOIN, some (Payload.path_join dest base name) =>
      if reg_valid dest && reg_valid base && reg_valid name then
        let newVal := match getStr (getReg s.regs base), getStr (getReg s.regs name) with
          | some b, some n => Val.str (path_join b n)
          | _, _ => Val.null
        { s with regs := setReg s.regs dest newVal }
      else s
  | sm_opcode.RANDOM_WALK, some (Payload.random_walk dest root depth) =>
      if reg_valid dest && reg_valid root && reg_valid depth then
        match getStr (getReg s.regs root) with
        | some r =>
            let d := wrap32 (asLong (getReg s.regs depth))
            let res := env.fsRandomWalk s.world r d
            let newVal := match res.1 with
              | some out => Val.str out
              | none => Val.null
            { s with regs := setReg s.regs dest newVal, world := res.2,
                     calls := s.calls ++ [FsCall.walk r d] }
        | none => { s with regs := setReg s.regs dest Val.null }
      else s
  | sm_opcode.DIR_CONTAINS, some (Payload.dir_contains dest dir_a dir_b) =>
      if reg_valid dest && reg_valid dir_a && reg_valid dir_b then
        match getStr (getReg s.regs dir_a), getStr (getReg s.regs dir_b) with
        | some a, some b =>
            let res := env.fsDirContains s.world a b
            { s with regs := setReg s.regs dest (ofBool res.1), world := res.2,
                     calls := s.calls ++ [FsCall.contains a b] }
        | _, _ => { s with regs := setReg s.regs dest (ofBool false) }
      else s
  | _, _ => s

/-- The return value signalled by an executed `SM_OP_RETURN`:
`a ? a->value : 0` (a payload struct of another shape is unreachable from the
parser; the model reads it as 0). -/
def retValue : Option Payload → Int
  | some (Payload.ret v) => v
  | _ => 0

/-- The executor `sm_execute`: run the instruction list in order.  A
`SM_OP_RETURN` signals the current context with its value and collapses the
rest of the list (`cur = NULL`); every other instruction updates the state via
its `case` and falls through to `cur->next`.  The result is the final state
together with `some v` when a RETURN was executed (the signalled completion
value), `none` when execution fell off the end. -/
def sm_execute {W : Type} (env : EnvOps W) :
    List sm_instr → St W → St W × Option Int
  | [], s => (s, none)
  | i :: rest, s =>
      match i.op with
      | sm_opcode.RETURN => (s, some (retValue i.data))
      | _ => sm_execute env rest (stepWrite env i s)

/-- The worker loop body of `sm_worker` for one dequeued job: clear
`job_done`, run `sm_execute`, and if no RETURN signalled completion
(`!ctx->job_done`), signal it with value 0.  The result is the final state,
the completion value read by `sm_wait`, and the number of completion signals
(those issued by RETURN during execution plus the worker's own). -/
def sm_worker_run {W : Type} (env : EnvOps W) (job : List sm_instr) (s : St W) :
    St W × Int × Nat :=
  let out := sm_execute env job s
  match out.2 with
  | some v => (out.1, v, 1 + 0)
  | none => (out.1, 0, 0 + 1)

/-- The table of `opcode_from_string` in `protocol.h`. -/
def opcode_from_string (s : String) : Option sm_opcode :=
  if s = "SM_OP_LOAD_CONST" then some sm_opcode.LOAD_CONST
  else if s = "SM_OP_FS_CREATE" then some sm_opcode.FS_CREATE
  else if s = "SM_OP_FS_DELETE" then some sm_opcode.FS_DELETE
  else if s = "SM_OP_FS_COPY" then some sm_opcode.FS_COPY
  else if s = "SM_OP_FS_MOVE" then some sm_opcode.FS_MOVE
  else if s = "SM_OP_FS_WRITE" then some sm_opcode.FS_WRITE
  else if s = "SM_OP_FS_READ" then some sm_opcode.FS_READ
  else if s = "SM_OP_FS_UNPACK" then some sm_opcode.FS_UNPACK
  else if s = "SM_OP_FS_HASH" then some sm_opcode.FS_HASH
  else if s = "SM_OP_FS_LIST" then some sm_opcode.FS_LIST
  else if s = "SM_OP_EQ" then some sm_opcode.EQ
  else if s = "SM_OP_NOT" then some sm_opcode.NOT
  else if s = "SM_OP_AND" then some sm_opcode.AND
  else if s = "SM_OP_OR" then some sm_opcode.OR
  else if s = "SM_OP_INDEX_SELECT" then some sm_opcode.INDEX_SELECT
  else if s = "SM_OP_RANDOM_RANGE" then some sm_opcode.RANDOM_RANGE
  else if s = "SM_OP_PATH_JOIN" then some sm_opcode.PATH_JOIN
  else if s = "SM_OP_RANDOM_WALK" then some sm_opcode.RANDOM_WALK
  else if s = "SM_OP_DIR_CONTAINS" then some sm_opcode.DIR_CONTAINS
  else if s = "SM_OP_RAND_SEED" then some sm_opcode.RAND_SEED
  else if s = "SM_OP_REPORT" then some sm_opcode.REPORT
  else if s = "SM_OP_RETURN" then some sm_opcode.RETURN
  else none

/-- Read an `int`-typed field of a `data` object: present and numeric, read
through cJSON `valueint`. -/
def intField (data : Json) (name : String) : Option Int :=
  match data.get name with
  | some (Json.num n) => some (valueint n)
  | _ => none

/-- Build the payload struct for one opcode from its `data` object, following
the per-opcode `case` of `proto_parse_recipe`: every required field must be
present with the right cJSON type, otherwise the struct is freed and
`ins->data` stays `NULL` (`none`). -/
def parse_data (code : sm_opcode) (data : Json) : Option Payload :=
  match code with
  | sm_opcode.LOAD_CONST =>
      match intField data "dest", data.get "value" with
      | some d, some (Json.str s) => some (Payload.load_const d (ConstVal.str s))
      | some d, some (Json.num n) => some (Payload.load_const d (ConstVal.int (valueint n)))
      | _, _ => none
  | sm_opcode.FS_CREATE =>
      match intField data "dest", intField data "path", intField data "type" with
      | some a, some b, some c => some (Payload.fs_create a b c)
      | _, _, _ => none
  | sm_opcode.FS_DELETE =>
      match intField data "dest", intField data "path" with
      | some a, some b => some (Payload.fs_delete a b)
      | _, _ => none
  | sm_opcode.FS_COPY =>
      match intField data "dest", intField data "src", intField data "dst" with
      | some a, some b, some c => some (Payload.fs_copy a b c)
      | _, _, _ => none
  | sm_opcode.FS_MOVE =>
      match intField data "dest", intField data "src", intField data "dst" with
      | some a, some b, some c => some (Payload.fs_move a b c)
      | _, _, _ => none
  | sm_opcode.FS_WRITE =>
      match intField data "dest", intField data "path", intField data "content",
            intField data "mode" with
      | some a, some b, some c, some d => some (Payload.fs_write a b c d)
      | _, _, _, _ => none
  | sm_opcode.FS_READ =>
      match intField data "dest", intField data "path" with
      | some a, some b => some (Payload.fs_read a b)
      | _, _ => none
  | sm_opcode.FS_UNPACK =>
      match intField data "tar_path", intField data "dest" with
      | some a, some b => some (Payload.fs_unpack a b)
      | _, _ => none
  | sm_opcode.FS_HASH =>
      match intField data "dest", intField data "path" with
      | some a, some b => some (Payload.fs_hash a b)
      | _, _ => none
  | sm_opcode.FS_LIST =>
      match intField data "dest", intField data "path" with
      | some a, some b => some (Payload.fs_list a b)
      | _, _ => none
  | sm_opcode.EQ =>
      match intField data "dest", intField data "lhs", intField data "rhs" with
      | some a, some b, some c => some (Payload.eq a b c)
      | _, _, _ => none
  | sm_opcode.NOT =>
      match intField data "dest", intField data "src" with
      | some a, some b => some (Payload.not a b)
      | _, _ => none
  | sm_opcode.AND =>
      match intField data "dest", intField data "lhs", intField data "rhs" with
      | some a, some b, some c => some (Payload.and a b c)
      | _, _, _ => none
  | sm_opcode.OR =>
      match intField data "dest", intField data "lhs", intField data "rhs" with
      | some a, some b, some c => some (Payload.or a b c)
      | _, _, _ => none
  | sm_opcode.INDEX_SELECT =>
      match intField data "dest", intField data "list", intField data "index" with
      | some a, some b, some c => some (Payload.index_select a b c)
      | _, _, _ => none
  | sm_opcode.RANDOM_RANGE =>
      match intField data "dest", intField data "min", intField data "max" with
      | some a, some b, some c => some (Payload.random_range a b c)
      | _, _, _ => none
  | sm_opcode.PATH_JOIN =>
      match intField data "dest", intField data "base", intField data "name" with
      | some a, some b, some c => some (Payload.path_join a b c)
      | _, _, _ => none
  | sm_opcode.RANDOM_WALK =>
      match intField data "dest", intField data "root", intField data "depth" with
      | some a, some b, some c => some (Payload.random_walk a b c)
      | _, _, _ => none
  | sm_opcode.DIR_CONTAINS =>
      match intField data "dest", intField data "a", intField data "b" with
      | some a, some b, some c => some (Payload.dir_contains a b c)
      | _, _, _ => none
  | sm_opcode.RAND_SEED =>
      match intField data "seed" with
      | some a => some (Payload.rand_seed a)
      | none => none
  | sm_opcode.REPORT =>
      match data.get "regs" with
      | some (Json.arr items) =>
          if items.length = 0 || items.length > 8 then none
          else
            let idxs := items.map fun it =>
              match it with
              | Json.num n => some (valueint n)
              | _ => none
            if idxs.all Option.isSome then
              some (Payload.report (idxs.reduceOption))
            else none
      | _ => none
  | sm_opcode.RETURN =>
      match intField data "value" with
      | some v => some (Payload.ret v)
      | none => none

/-- One iteration of the `cJSON_ArrayForEach` loop of `proto_parse_recipe`:
skip (`none`) a non-object element, an element without a string `op` and an
object `data`, or an unknown opcode name; otherwise allocate the instruction
node and attach the payload built by the per-opcode `case` — when that `case`
rejects the `data` fields, the node is still appended, with `data` left
`NULL`. -/
def parse_elem (item : Json) : Option sm_instr :=
  match item with
  | Json.obj _ =>
      match item.get "op", item.get "data" with
      | some (Json.str opName), some (Json.obj dataFields) =>
          match opcode_from_string opName with
          | some code => some ⟨code, parse_data code (Json.obj dataFields)⟩
          | none => none
      | _, _ => none
  | _ => none

/-- The recipe parser `proto_parse_recipe`: `none` when the wire text did not
parse or the root is not an array (the C returns `NULL` immediately),
otherwise the instruction list accumulated by the element loop. -/
def proto_parse_recipe : Option Json → Option (List sm_instr)
  | some (Json.arr items) => some (items.filterMap parse_elem)
  | _ => none

/-- The handshake parser `parse_handshake` of `protocol.h`: the wire text
must parse (`cJSON_Parse` non-`NULL`), the `hello` item must be a string and
the `version` item must be a number. -/
def parse_handshake : Option Json → Bool
  | none => false
  | some j => isStr (j.get "hello") && isNum (j.get "version")

/-- Spec-side formulation of handshake acceptance (wire-protocol section):
the message is a JSON object whose `hello` field is present as a string and
whose `version` field is present as a number. -/
def handshakeSpecAccepts : Option Json → Bool
  | some (Json.obj fields) =>
      isStr (lookupField fields "hello") && isNum (lookupField fields "version")
  | _ => false

/-- The handshake phase of one client session in `main` (`taskd.c`): parse
the first message, send `report_status(0)` on success and `report_status(-1)`
on failure, and close the connection in the failure case.  The result is the
integer of the status object sent and whether the connection was closed at
this point. -/
def handshake_phase (msg : Option Json) : Int × Bool :=
  let ok := parse_handshake msg
  (if ok then 0 else -1, !ok)

/-- The response array built by `main` in `taskd.c`: the report events
collected by `report_collect_cb` in order, followed by the terminal
`report_status(0)` object. -/
def response_array (events : List Json) : List Json :=
  events ++ [Json.obj [("status", Json.num 0)]]

/-- Register-index operands of an instruction, as interpreted by the opcode
that owns the payload (spec section 3: operand fields are register indices,
except the inline literals of LOAD_CONST, RAND_SEED and RETURN).  A missing
or mismatched payload has no operands. -/
def operandIdxs (i : sm_instr) : List Int :=
  match i.op, i.data with
  | sm_opcode.LOAD_CONST, some (Payload.load_const dest _) => [dest]
  | sm_opcode.FS_CREATE, some (Payload.fs_create a b c) => [a, b, c]
  | sm_opcode.FS_DELETE, some (Payload.fs_delete a b) => [a, b]
  | sm_opcode.FS_COPY, some (Payload.fs_copy a b c) => [a, b, c]
  | sm_opcode.FS_MOVE, some (Payload.fs_move a b c) => [a, b, c]
  | sm_opcode.FS_WRITE, some (Payload.fs_write a b c d) => [a, b, c, d]
  | sm_opcode.FS_READ, some (Payload.fs_read a b) => [a, b]
  | sm_opcode.FS_UNPACK, some (Payload.fs_unpack a b) => [a, b]
  | sm_opcode.FS_HASH, some (Payload.fs_hash a b) => [a, b]
  | sm_opcode.FS_LIST, some (Payload.fs_list a b) => [a, b]
  | sm_opcode.EQ, some (Payload.eq a b c) => [a, b, c]
  | sm_opcode.NOT, some (Payload.not a b) => [a, b]
  | sm_opcode.AND, some (Payload.and a b c) => [a, b, c]
  | sm_opcode.OR, some (Payload.or a b c) => [a, b, c]
  | sm_opcode.INDEX_SELECT, some (Payload.index_select a b c) => [a, b, c]
  | sm_opcode.RANDOM_RANGE, some (Payload.random_range a b c) => [a, b, c]
  | sm_opcode.PATH_JOIN, some (Payload.path_join a b c) => [a, b, c]
  | sm_opcode.RANDOM_WALK, some (Payload.random_walk a b c) => [a, b, c]
  | sm_opcode.DIR_CONTAINS, some (Payload.dir_contains a b c) => [a, b, c]
  | sm_opcode.REPORT, some (Payload.report regs) => regs
  | _, _ => []

/-- True when some register-index operand of the instruction is outside
`[0, SM_REG_COUNT)`. -/
def hasInvalidOperand (i : sm_instr) : Bool :=
  (operandIdxs i).any fun k => !reg_valid k

/-- True when the list contains an `SM_OP_RETURN` instruction (with any
payload, a `NULL` one included). -/
def containsReturn (l : List sm_instr) : Bool :=
  l.any fun i => i.op = sm_opcode.RETURN

/-- A well-formed RETURN instruction as built by the parser. -/
def retInstr (v : Int) : sm_instr :=
  ⟨sm_opcode.RETURN, some (Payload.ret v)⟩

/-- A concrete instantiation of the external world for witnesses: nothing
exists, every primitive fails, the PRNG always yields 0. -/
def trivEnv : EnvOps Unit where
  fsCreate := fun w _ _ => (false, w)
  fsDelete := fun w _ => (false, w)
  fsCopy := fun w _ _ => (false, w)
  fsMove := fun w _ _ => (false, w)
  fsWrite := fun w _ _ _ => (false, w)
  fsRead := fun w _ => (none, w)
  fsUnpack := fun w _ _ => (false, w)
  fsHash := fun w _ => (none, w)
  fsList := fun w _ => (none, w)
  fsRandomWalk := fun w _ _ => (none, w)
  fsDirContains := fun w _ _ => (false, w)
  rand := fun w => (0, w)

/-- The executor state at thread start: a `calloc`ed register file (all
`NULL`), no calls, no reports. -/
def initSt : St Unit :=
  ⟨List.replicate 8 Val.null, (), [], []⟩

/-! Structural lemmas about the executor. -/

theorem sm_execute_cons {W : Type} (env : EnvOps W) (a : sm_instr)
    (l : List sm_instr) (s : St W) :
    sm_execute env (a :: l) s =
      if a.op = sm_opcode.RETURN then (s, some (retValue a.data))
      else sm_execute env l (stepWrite env a s) := by
  rcases a with ⟨op, d⟩
  cases op <;> simp [sm_execute]

theorem sm_execute_append {W : Type} (env : EnvOps W) (xs ys : List sm_instr)
    (s : St W) :
    sm_execute env (xs ++ ys) s =
      match sm_execute env xs s with
      | (s1, some v) => (s1, some v)
      | (s1, none) => sm_execute env ys s1 := by
  induction xs generalizing s with
  | nil => simp [sm_execute]
  | cons a xs ih =>
      rw [List.cons_append, sm_execute_cons, sm_execute_cons]
      by_cases h : a.op = sm_opcode.RETURN
      · simp [h]
      · simp [h, ih]

theorem sm_execute_no_return {W : Type} (env : EnvOps W) (l : List sm_instr)
    (s : St W) (h : containsReturn l = false) :
    (sm_execute env l s).2 = none := by
  induction l generalizing s with
  | nil => simp [sm_execute]
  | cons a l ih =>
      simp only [containsReturn, List.any_cons, Bool.or_eq_false_iff] at h
      rw [sm_execute_cons]
      have ha : ¬ a.op = sm_opcode.RETURN := by
        intro hc
        simp [hc] at h
      simp only [ha, if_false]
      exact ih _ (by simpa [containsReturn] using h.2)

theorem hasInvalidOperand_op_ne_return (i : sm_instr)
    (h : hasInvalidOperand i = true) : ¬ i.op = sm_opcode.RETURN := by
  intro hc
  rcases i with ⟨op, d⟩
  simp only at hc
  subst hc
  rcases d with _ | pl <;> simp [hasInvalidOperand, operandIdxs] at h

theorem stepWrite_invalid_operand {W : Type} (env : EnvOps W) (i : sm_instr)
    (s : St W) (h : hasInvalidOperand i = true) :
    stepWrite env i s = s := by
  rcases i with ⟨op, d⟩
  cases op <;> rcases d with _ | pl <;> (try cases pl) <;>
      simp only [hasInvalidOperand, operandIdxs, List.any_nil,
        List.any_cons, Bool.or_eq_true, Bool.not_eq_true'] at h <;>
      (try rfl) <;>
    · simp only [stepWrite]
      split_ifs with hc <;> simp_all

theorem stepWrite_none_data {W : Type} (env : EnvOps W) (op : sm_opcode)
    (s : St W) : stepWrite env ⟨op, none⟩ s = s := by
  cases op <;> rfl

/-! Claim theorems. -/

/-- C3 counterexample: the claim quantifies over every recipe `R`, but when
`R` itself contains a RETURN — here `R = [RETURN 3]` — executing
`R ++ [RETURN 7]` completes with `R`'s value 3, not with the appended 7. -/
theorem C3_counterexample :
    (sm_worker_run trivEnv ([retInstr 3] ++ [retInstr 7]) initSt).2.1 = 3 ∧
    (3 : Int) ≠ 7 := by
  exact ⟨rfl, by decide⟩

/-- C3 (amended): for every recipe `R` that contains no RETURN instruction,
executing `R` followed by `RETURN v` completes with value `v`, and the
instructions after that RETURN are not executed (the run is identical to the
one without them). -/
theorem C3_return_value {W : Type} (env : EnvOps W) (R S : List sm_instr)
    (v : Int) (s : St W) (h : containsReturn R = false) :
    sm_worker_run env (R ++ retInstr v :: S) s
      = sm_worker_run env (R ++ [retInstr v]) s
    ∧ (sm_worker_run env (R ++ retInstr v :: S) s).2.1 = v := by
  have key : ∀ T : List sm_instr,
      sm_execute env (R ++ retInstr v :: T) s = ((sm_execute env R s).1, some v) := by
    intro T
    rw [sm_execute_append]
    rcases hx : sm_execute env R s with ⟨s1, r⟩
    have hr : r = none := by
      have := sm_execute_no_return env R s h
      rw [hx] at this
      exact this
    subst hr
    simp [sm_execute_cons, retInstr, retValue]
  constructor
  · unfold sm_worker_run
    rw [key S, key []]
  · unfold sm_worker_run
    rw [key S]

/-- C3 witness: instantiating the amended claim with `R = []`,
`S = [RETURN 9]`, `v = 5`. -/
theorem C3_return_value_witness :
    containsReturn [] = false ∧
    (sm_worker_run trivEnv ([] ++ retInstr 5 :: [retInstr 9]) initSt).2.1 = 5 :=
  ⟨by decide, (C3_return_value trivEnv [] [retInstr 9] 5 initSt (by decide)).2⟩

/-- C5: an instruction with a register-index operand outside
`[0, SM_REG_COUNT)` is a no-op: executing any recipe containing it produces
exactly the run of the recipe with that instruction removed — same final
state (register file, world, call trace) and same termination. -/
theorem C5_invalid_operand_noop {W : Type} (env : EnvOps W)
    (R1 R2 : List sm_instr) (i : sm_instr) (s : St W)
    (h : hasInvalidOperand i = true) :
    sm_execute env (R1 ++ i :: R2) s = sm_execute env (R1 ++ R2) s := by
  rw [sm_execute_append, sm_execute_append]
  rcases hx : sm_execute env R1 s with ⟨s1, r⟩
  cases r with
  | some v => rfl
  | none =>
      simp only
      rw [sm_execute_cons]
      have hne : ¬ i.op = sm_opcode.RETURN := hasInvalidOperand_op_ne_return i h
      rw [if_neg hne, stepWrite_invalid_operand env i s1 h]

/-- C5 witness: a LOAD_CONST targeting register 9 is removable. -/
theorem C5_invalid_operand_noop_witness :
    hasInvalidOperand ⟨sm_opcode.LOAD_CONST, some (Payload.load_const 9 (ConstVal.int 1))⟩ = true ∧
    sm_execute trivEnv
        ([retInstr 2] ++ ⟨sm_opcode.LOAD_CONST, some (Payload.load_const 9 (ConstVal.int 1))⟩ :: [])
        initSt
      = sm_execute trivEnv ([retInstr 2] ++ []) initSt :=
  ⟨by decide,
   C5_invalid_operand_noop trivEnv [retInstr 2] []
     ⟨sm_opcode.LOAD_CONST, some (Payload.load_const 9 (ConstVal.int 1))⟩ initSt (by decide)⟩

/-- C6: a recipe with no RETURN instruction runs to the end of the list
(no early return), and the worker signals completion exactly once, with
completion value 0. -/
theorem C6_fell_off_end {W : Type} (env : EnvOps W) (R : List sm_instr)
    (s : St W) (h : containsReturn R = false) :
    (sm_execute env R s).2 = none
    ∧ (sm_worker_run env R s).2.1 = 0
    ∧ (sm_worker_run env R s).2.2 = 1 := by
  have hn := sm_execute_no_return env R s h
  refine ⟨hn, ?_, ?_⟩ <;>
    · unfold sm_worker_run
      rcases hx : sm_execute env R s with ⟨s1, r⟩
      rw [hx] at hn
      subst hn
      rfl

/-- C6 witness: a one-instruction recipe without RETURN completes with 0 and
one completion signal. -/
theorem C6_fell_off_end_witness :
    containsReturn [⟨sm_opcode.EQ, some (Payload.eq 0 1 2)⟩] = false ∧
    (sm_worker_run trivEnv [⟨sm_opcode.EQ, some (Payload.eq 0 1 2)⟩] initSt).2.1 = 0 ∧
    (sm_worker_run trivEnv [⟨sm_opcode.EQ, some (Payload.eq 0 1 2)⟩] initSt).2.2 = 1 :=
  ⟨by decide,
   (C6_fell_off_end trivEnv [⟨sm_opcode.EQ, some (Payload.eq 0 1 2)⟩] initSt (by decide)).2⟩

/-- A recipe element with a known opcode but an ill-typed `value` field
(a string where `SM_OP_RETURN` requires a number). -/
def c2BadElem : Json :=
  Json.obj [("op", Json.str "SM_OP_RETURN"),
            ("data", Json.obj [("value", Json.str "x")])]

/-- A recipe pairing the malformed RETURN with a well-formed `RETURN 7`. -/
def c2Recipe : Json :=
  Json.arr [c2BadElem,
            Json.obj [("op", Json.str "SM_OP_RETURN"),
                      ("data", Json.obj [("value", Json.num 7)])]]

/-- C2 counterexample: a RETURN element with an ill-typed `value` is not
dropped — the parser keeps it with a `NULL` payload — and executing the
parsed recipe completes with value 0, terminating the job before the
well-formed `RETURN 7`; with the offending element absent the completion
value is 7. -/
theorem C2_counterexample :
    proto_parse_recipe (some c2Recipe)
      = some [⟨sm_opcode.RETURN, none⟩, retInstr 7]
    ∧ (sm_worker_run trivEnv [⟨sm_opcode.RETURN, none⟩, retInstr 7] initSt).2.1 = 0
    ∧ (sm_worker_run trivEnv [retInstr 7] initSt).2.1 = 7
    ∧ (0 : Int) ≠ 7 := by
  refine ⟨rfl, rfl, rfl, by decide⟩

/-- C2 (amended): an element whose known opcode's `data` fields are missing
or ill-typed is kept by the parser as an instruction with a `NULL` payload.
Executing that instruction is identical to the element being absent for every
opcode except RETURN; a kept RETURN with a `NULL` payload behaves exactly
like `RETURN 0` — it terminates the job with completion value 0. -/
theorem C2_malformed_kept {W : Type} (env : EnvOps W) (item : Json)
    (code : sm_opcode) (pre post : List sm_instr) (s : St W)
    (h : parse_elem item = some ⟨code, none⟩) :
    (code ≠ sm_opcode.RETURN →
      sm_execute env (pre ++ ⟨code, none⟩ :: post) s = sm_execute env (pre ++ post) s)
    ∧ (code = sm_opcode.RETURN →
      sm_execute env (pre ++ ⟨code, none⟩ :: post) s
        = sm_execute env (pre ++ [retInstr 0]) s) := by
  constructor
  · intro hne
    rw [sm_execute_append, sm_execute_append]
    rcases sm_execute env pre s with ⟨s1, r⟩
    cases r with
    | some v => rfl
    | none =>
        simp only
        rw [sm_execute_cons, if_neg hne, stepWrite_none_data]
  · intro he
    subst he
    rw [sm_execute_append, sm_execute_append]
    rcases sm_execute env pre s with ⟨s1, r⟩
    cases r with
    | some v => rfl
    | none => simp [sm_execute_cons, retInstr, retValue]

/-- C2 witness: the malformed RETURN element of `c2Recipe`, kept with a
`NULL` payload, terminates the job like `RETURN 0`. -/
theorem C2_malformed_kept_witness :
    parse_elem c2BadElem = some ⟨sm_opcode.RETURN, none⟩ ∧
    sm_execute trivEnv ([] ++ ⟨sm_opcode.RETURN, none⟩ :: [retInstr 7]) initSt
      = sm_execute trivEnv ([] ++ [retInstr 0]) initSt :=
  ⟨rfl,
   (C2_malformed_kept trivEnv c2BadElem sm_opcode.RETURN [] [retInstr 7] initSt rfl).2 rfl⟩

/-- The load-and-report recipe of spec scenario 4: load 42 into register 0,
report register 0, return 0. -/
def c1Recipe : Json :=
  Json.arr [
    Json.obj [("op", Json.str "SM_OP_LOAD_CONST"),
              ("data", Json.obj [("dest", Json.num 0), ("value", Json.num 42)])],
    Json.obj [("op", Json.str "SM_OP_REPORT"),
              ("data", Json.obj [("regs", Json.arr [Json.num 0])])],
    Json.obj [("op", Json.str "SM_OP_RETURN"),
              ("data", Json.obj [("value", Json.num 0)])]]

/-- The instruction list `proto_parse_recipe` builds for `c1Recipe`. -/
def c1Instrs : List sm_instr :=
  [⟨sm_opcode.LOAD_CONST, some (Payload.load_const 0 (ConstVal.int 42))⟩,
   ⟨sm_opcode.REPORT, some (Payload.report [0])⟩,
   retInstr 0]

/-- C1: the REPORT of spec scenario 4 parses, executes, and loads 42 into
register 0, yet delivers nothing to the report sink — `sm_execute` has no
`SM_OP_REPORT` case, so the opcode falls into its ignore-unknown `default`
branch — and the client's response array is just the terminal status object,
with no report event. -/
theorem C1_report_not_delivered :
    proto_parse_recipe (some c1Recipe) = some c1Instrs
    ∧ (sm_worker_run trivEnv c1Instrs initSt).1.reports = []
    ∧ getReg (sm_worker_run trivEnv c1Instrs initSt).1.regs 0 = ofInt 42
    ∧ response_array (sm_worker_run trivEnv c1Instrs initSt).1.reports
        = [Json.obj [("status", Json.num 0)]]
    ∧ (sm_worker_run trivEnv c1Instrs initSt).2.1 = 0 := by
  refine ⟨rfl, rfl, rfl, rfl, rfl⟩

/-- A state whose register 0 holds the tar path and register 1 the
destination directory, as set up for FS_UNPACK. -/
def c4St : St Unit :=
  ⟨[Val.str "a.tar", Val.str "/dest", Val.null, Val.null,
    Val.null, Val.null, Val.null, Val.null], (), [], []⟩

/-- C4 counterexample: FS_UNPACK with valid operand registers 0 (tar path)
and 1 (destination) stores nothing — the register file is unchanged and the
destination register still holds the directory string, which is not a boolean
word. -/
theorem C4_counterexample :
    reg_valid 0 = true ∧ reg_valid 1 = true
    ∧ (sm_execute trivEnv [⟨sm_opcode.FS_UNPACK, some (Payload.fs_unpack 0 1)⟩] c4St).1.regs
        = c4St.regs
    ∧ getReg c4St.regs 1 = Val.str "/dest"
    ∧ Val.str "/dest" ≠ ofBool true ∧ Val.str "/dest" ≠ ofBool false := by
  refine ⟨by decide, by decide, rfl, rfl, by decide, by decide⟩

/-- C4 (amended): FS_UNPACK reads the tar path from its `tar_path` register
and the extraction directory from its `dest` register; when both indices are
valid and both registers hold strings it invokes the unpack primitive with
them and discards the boolean result.  No register is written. -/
theorem C4_unpack_writes_nothing {W : Type} (env : EnvOps W) (s : St W)
    (t d : Int) (p q : String)
    (h1 : reg_valid t = true) (h2 : reg_valid d = true)
    (h3 : getStr (getReg s.regs t) = some p)
    (h4 : getStr (getReg s.regs d) = some q) :
    sm_execute env [⟨sm_opcode.FS_UNPACK, some (Payload.fs_unpack t d)⟩] s
      = ({ s with world := (env.fsUnpack s.world p q).2,
                  calls := s.calls ++ [FsCall.unpack p q] }, none) := by
  simp [sm_execute, sm_execute_cons, stepWrite, h1, h2, h3, h4]

/-- C4 witness: the amended FS_UNPACK behaviour at the concrete state
`c4St`. -/
theorem C4_unpack_writes_nothing_witness :
    getStr (getReg c4St.regs 0) = some "a.tar" ∧
    sm_execute trivEnv [⟨sm_opcode.FS_UNPACK, some (Payload.fs_unpack 0 1)⟩] c4St
      = ({ c4St with world := (trivEnv.fsUnpack c4St.world "a.tar" "/dest").2,
                     calls := c4St.calls ++ [FsCall.unpack "a.tar" "/dest"] }, none) :=
  ⟨rfl,
   C4_unpack_writes_nothing trivEnv c4St 0 1 "a.tar" "/dest"
     (by decide) (by decide) rfl rfl⟩

/-- C7: handshake acceptance is exactly the spec predicate — the message is
a JSON object with a string `hello` field and a numeric `version` field —
and the handshake phase of `main` answers status 0 and keeps the connection
on acceptance, status -1 and a closed connection otherwise (a message whose
text did not even parse included). -/
theorem C7_handshake (msg : Option Json) :
    parse_handshake msg = handshakeSpecAccepts msg
    ∧ handshake_phase msg
        = (if handshakeSpecAccepts msg then ((0 : Int), false) else (-1, true)) := by
  have h1 : parse_handshake msg = handshakeSpecAccepts msg := by
    cases msg with
    | none => rfl
    | some j => cases j <;> rfl
  refine ⟨h1, ?_⟩
  unfold handshake_phase
  rw [h1]
  cases handshakeSpecAccepts msg <;> rfl

theorem asLong_ofInt (m : Int) : asLong (ofInt m) = m := by
  by_cases h : m = 0 <;> simp [ofInt, asLong, h]

theorem rand_core (r : Nat) (mn mx : Int) (hle : mn ≤ mx) :
    mn ≤ (if wrap64 (mx - mn + 1) ≤ 0 then mn else mn + (r : Int) % wrap64 (mx - mn + 1))
    ∧ (if wrap64 (mx - mn + 1) ≤ 0 then mn else mn + (r : Int) % wrap64 (mx - mn + 1)) ≤ mx := by
  by_cases hd : wrap64 (mx - mn + 1) ≤ 0
  · simp [hd, hle]
  · push_neg at hd
    rw [if_neg (not_le.mpr hd)]
    have h0 : 0 ≤ (r : Int) % wrap64 (mx - mn + 1) :=
      Int.emod_nonneg _ (ne_of_gt hd)
    have h1 : (r : Int) % wrap64 (mx - mn + 1) < wrap64 (mx - mn + 1) :=
      Int.emod_lt_of_pos _ hd
    have h2 : wrap64 (mx - mn + 1) ≤ mx - mn + 1 := by
      unfold wrap64
      omega
    constructor <;> omega

theorem rand_range_mem (r : Nat) (lo hi : Int) :
    min lo hi ≤ rand_range r lo hi ∧ rand_range r lo hi ≤ max lo hi := by
  unfold rand_range
  by_cases hc : hi < lo
  · simp only [if_pos hc]
    rw [min_eq_right (le_of_lt hc), max_eq_left (le_of_lt hc)]
    exact rand_core r hi lo (le_of_lt hc)
  · push_neg at hc
    simp only [if_neg (not_lt.mpr hc)]
    rw [min_eq_left hc, max_eq_right hc]
    exact rand_core r lo hi hc

/-- C8: RANDOM_RANGE with integer values `m`, `n` in its min and max operand
registers stores `rand_range` of the next PRNG output, a value within
`[min m n, max m n]` — for any inputs, the descending and wrapping cases
included — and any state with the same PRNG world and the same operand
values stores the same value. -/
theorem C8_random_range_in_range {W : Type} (env : EnvOps W) (s s2 : St W)
    (d mi ma m n : Int)
    (hd : reg_valid d = true) (hmi : reg_valid mi = true) (hma : reg_valid ma = true)
    (h1 : getReg s.regs mi = ofInt m) (h2 : getReg s.regs ma = ofInt n)
    (h3 : s2.world = s.world)
    (h4 : getReg s2.regs mi = ofInt m) (h5 : getReg s2.regs ma = ofInt n) :
    (sm_execute env [⟨sm_opcode.RANDOM_RANGE, some (Payload.random_range d mi ma)⟩] s).1.regs
      = setReg s.regs d (ofInt (rand_range (env.rand s.world).1 m n))
    ∧ min m n ≤ rand_range (env.rand s.world).1 m n
    ∧ rand_range (env.rand s.world).1 m n ≤ max m n
    ∧ (sm_execute env [⟨sm_opcode.RANDOM_RANGE, some (Payload.random_range d mi ma)⟩] s2).1.regs
      = setReg s2.regs d (ofInt (rand_range (env.rand s.world).1 m n)) := by
  refine ⟨?_, (rand_range_mem _ m n).1, (rand_range_mem _ m n).2, ?_⟩
  · simp [sm_execute, stepWrite, hd, hmi, hma, h1, h2, asLong_ofInt]
  · simp [sm_execute, stepWrite, hd, hmi, hma, h3, h4, h5, asLong_ofInt]

/-- A state holding -2 and 4 in the min and max operand registers. -/
def c8St : St Unit :=
  ⟨[Val.null, Val.int (-2), Val.int 4, Val.null,
    Val.null, Val.null, Val.null, Val.null], (), [], []⟩

/-- C8 witness: RANDOM_RANGE over the pair (-2, 4) at the concrete state
`c8St`. -/
theorem C8_random_range_in_range_witness :
    (sm_execute trivEnv [⟨sm_opcode.RANDOM_RANGE, some (Payload.random_range 0 1 2)⟩] c8St).1.regs
      = setReg c8St.regs 0 (ofInt (rand_range (trivEnv.rand c8St.world).1 (-2) 4))
    ∧ min (-2 : Int) 4 ≤ rand_range (trivEnv.rand c8St.world).1 (-2) 4
    ∧ rand_range (trivEnv.rand c8St.world).1 (-2) 4 ≤ max (-2 : Int) 4
    ∧ (sm_execute trivEnv [⟨sm_opcode.RANDOM_RANGE, some (Payload.random_range 0 1 2)⟩] c8St).1.regs
      = setReg c8St.regs 0 (ofInt (rand_range (trivEnv.rand c8St.world).1 (-2) 4)) :=
  C8_random_range_in_range trivEnv c8St c8St 0 1 2 (-2) 4
    (by decide) (by decide) (by decide) (by decide) (by decide) rfl
    (by decide) (by decide)

/-- A state holding the empty base string in register 0 and a name in
register 1. -/
def c9St : St Unit :=
  ⟨[Val.str "", Val.str "n", Val.null, Val.null,
    Val.null, Val.null, Val.null, Val.null], (), [], []⟩

/-- C9 counterexample: with an empty base, `path_join` inserts no separator
at all — the result is `name` itself, not the claimed base-slash-name
concatenation — and PATH_JOIN stores that separator-free string. -/
theorem C9_counterexample :
    path_join "" "n" = "n"
    ∧ ("n" : String) ≠ "" ++ "/" ++ "n"
    ∧ (sm_execute trivEnv [⟨sm_opcode.PATH_JOIN, some (Payload.path_join 2 0 1)⟩] c9St).1.regs
        = setReg c9St.regs 2 (Val.str "n") := by
  refine ⟨rfl, by decide, rfl⟩

/-- C9 (amended): for every non-empty base, `path_join` yields base with at
most one trailing separator stripped, then exactly one separator, then name
— so a single trailing slash in base does not double the separator and a
missing one is supplied; for the empty base the result is name with no
separator (the counterexample). -/
theorem C9_path_join_single_sep (base name : String) (h : base ≠ "") :
    (path_join base name).data = stripSlash base.data ++ sepChar :: name.data := by
  have hb : base.data ≠ [] := by
    intro hnil
    exact h (String.ext hnil)
  show pjChars base.data name.data = stripSlash base.data ++ sepChar :: name.data
  unfold pjChars stripSlash
  by_cases hl : base.data.getLast? = some sepChar
  · rw [if_pos hl]
    have hsplit : base.data.dropLast ++ [base.data.getLast hb] = base.data :=
      List.dropLast_append_getLast hb
    have hlast : base.data.getLast hb = sepChar := by
      have := List.getLast?_eq_getLast base.data hb
      rw [this] at hl
      exact Option.some_injective _ hl
    rw [hlast] at hsplit
    have hcond : ¬ (base.data ≠ [] ∧ base.data.getLast? ≠ some sepChar) := by
      intro hcontra
      exact hcontra.2 hl
    rw [if_neg hcond]
    rw [← hsplit]
    simp
  · rw [if_neg hl, if_pos ⟨hb, hl⟩]
    simp

/-- C9 witness: joining the slash-terminated base `a/` with `n`. -/
theorem C9_path_join_single_sep_witness :
    ("a/" : String) ≠ "" ∧
    (path_join "a/" "n").data = stripSlash ("a/" : String).data ++ sepChar :: ("n" : String).data :=
  ⟨by decide, C9_path_join_single_sep "a/" "n" (by decide)⟩

/-- C10: a register holding the integer 0 is the null machine word, i.e. the
empty register — the store `(void *)(uintptr_t)0` is `NULL` — so execution of
any instruction list from a state with register `r` set to the integer 0 is
identical (registers, world, calls, reports, completion) to execution with
register `r` empty; and EQ between a register holding integer 0 and an empty
register stores true. -/
theorem C10_zero_register_empty {W : Type} (env : EnvOps W) :
    (∀ (instrs : List sm_instr) (s : St W) (r : Int),
        sm_execute env instrs { s with regs := setReg s.regs r (ofInt 0) }
          = sm_execute env instrs { s with regs := setReg s.regs r Val.null })
    ∧ (∀ (s : St W) (d a b : Int),
        reg_valid d = true → reg_valid a = true → reg_valid b = true →
        getReg s.regs a = ofInt 0 → getReg s.regs b = Val.null →
        (sm_execute env [⟨sm_opcode.EQ, some (Payload.eq d a b)⟩] s).1.regs
          = setReg s.regs d (ofBool true)) := by
  have hz : ofInt 0 = Val.null := by simp [ofInt]
  constructor
  · intro instrs s r
    rw [hz]
  · intro s d a b hd ha hb h1 h2
    rw [hz] at h1
    simp [sm_execute, stepWrite, hd, ha, hb, h1, h2]
    by_cases hab : a = b <;> simp [hab, valEqWord, word]

/-- C10 witness: register 3 set to integer 0 versus empty, and EQ over the
all-null initial state. -/
theorem C10_zero_register_empty_witness :
    sm_execute trivEnv [retInstr 1] { initSt with regs := setReg initSt.regs 3 (ofInt 0) }
      = sm_execute trivEnv [retInstr 1] { initSt with regs := setReg initSt.regs 3 Val.null }
    ∧ (sm_execute trivEnv [⟨sm_opcode.EQ, some (Payload.eq 2 0 1)⟩] initSt).1.regs
        = setReg initSt.regs 2 (ofBool true) :=
  ⟨(C10_zero_register_empty trivEnv).1 [retInstr 1] initSt 3,
   (C10_zero_register_empty trivEnv).2 initSt 2 0 1
     (by decide) (by decide) (by decide) (by decide) rfl⟩

end Taskd
